import Mathlib

/-! Verification of the offline evaluation and statistics pipeline of the
apolitical-bug-triage repository.  JavaScript numbers are modelled as exact
rationals (`ℚ`) where the source computation is field arithmetic, and as real
numbers (`ℝ`) where the source calls transcendental functions (`Math.exp`,
`Math.log`, `Math.sqrt`, `Math.sin`, `Math.PI`). -/

namespace BugTriage

/-- JS `Math.abs` on rationals, written out by its branch semantics. -/
def jsAbs (q : ℚ) : ℚ := if q < 0 then -q else q

/-- One iteration block of the continued-fraction loop of `gammainc`
(scripts/eval-significance.ts, lines 110-127): iterations run for
`i = 1 .. 99` (`maxIterations = 100`), with the source's `1e-30` small-value
guards on `d` and `c` and the `1e-10` relative-error break on `del`.
`fuel` counts the remaining iterations; it is started at `99` so the loop
count matches the source exactly. -/
def gammaincCFLoop (a : ℚ) : ℕ → ℕ → ℚ → ℚ → ℚ → ℚ → ℚ
  | 0, _, _, _, _, h => h
  | fuel + 1, i, b, c, d, h =>
    let an : ℚ := -(i : ℚ) * ((i : ℚ) - a)
    let b1 := b + 2
    let d1 := an * d + b1
    let d2 := if jsAbs d1 < 1 / 10 ^ 30 then 1 / 10 ^ 30 else d1
    let c1 := b1 + an / c
    let c2 := if jsAbs c1 < 1 / 10 ^ 30 then 1 / 10 ^ 30 else c1
    let d3 := d2⁻¹
    let del := d3 * c2
    let h1 := h * del
    if jsAbs (del - 1) < 1 / 10 ^ 10 then h1
    else gammaincCFLoop a fuel (i + 1) b1 c2 d3 h1

/-- Value of the continued fraction `h` computed by the `x ≥ a + 1` branch of
`gammainc` (lines 110-127): `b = x + 1 - a`, `c = 1 / 1e-30`, `d = h = 1 / b`,
then the loop. -/
def gammaincCF (a x : ℚ) : ℚ :=
  let b0 := x + 1 - a
  let c0 : ℚ := 10 ^ 30
  let d0 := b0⁻¹
  gammaincCFLoop a 99 1 b0 c0 d0 d0

/-- One iteration block of the series-expansion loop of `gammainc`
(lines 99-108): `term *= x / (a + n); sum += term;` for `n = 1 .. 99`, with
the `1e-10` relative-error break. -/
def gammaincSeriesLoop (a x : ℚ) : ℕ → ℕ → ℚ → ℚ → ℚ
  | 0, _, _, sum => sum
  | fuel + 1, n, term, sum =>
    let term1 := term * (x / (a + (n : ℚ)))
    let sum1 := sum + term1
    if jsAbs term1 < 1 / 10 ^ 10 * jsAbs sum1 then sum1
    else gammaincSeriesLoop a x fuel (n + 1) term1 sum1

/-- Value of the series `sum` computed by the `x < a + 1` branch of
`gammainc` (lines 100-107): `sum = term = 1 / a`, then the loop. -/
def gammaincSeries (a x : ℚ) : ℚ :=
  gammaincSeriesLoop a x 99 1 a⁻¹ a⁻¹

/-- The nine Lanczos coefficients of `lnGamma`
(scripts/eval-significance.ts, lines 136-146), as exact rationals. -/
def lanczosC : List ℚ :=
  [0.99999999999980993, 676.5203681218851, -1259.1392167224028,
   771.32342877765313, -176.61502916214059, 12.507343278686905,
   -0.13857109526572012, 9.9843695780195716e-6, 1.5056327351493116e-7]

/-- The accumulation `x = c[0]; for i in 1 .. g+1, x += c[i] / (z + i)` of
`lnGamma` (lines 153-156), with `g = 7`. -/
def lanczosSum (z : ℚ) : ℚ :=
  (List.range 8).foldl
    (fun x i => x + lanczosC.getD (i + 1) 0 / (z + ((i : ℚ) + 1)))
    (lanczosC.getD 0 0)

/-- Main branch of `lnGamma` (lines 152-158), for `z ≥ 0.5`:
`z -= 1; t = z + g + 0.5;
 return 0.5 ln(2π) + (z + 0.5) ln t - t + ln x` with `x` the Lanczos sum. -/
noncomputable def lnGammaMain (z0 : ℚ) : ℝ :=
  let z : ℚ := z0 - 1
  let x : ℚ := lanczosSum z
  let t : ℚ := z + 7 + 1 / 2
  1 / 2 * Real.log (2 * Real.pi) + ((z : ℝ) + 1 / 2) * Real.log (t : ℝ)
    - (t : ℝ) + Real.log (x : ℝ)

/-- Function `lnGamma` (lines 134-159).  For `z < 0.5` the source uses the reflection
formula `ln(π / sin (π z)) - lnGamma (1 - z)`; since then `1 - z > 0.5`, the
recursive call lands in the main branch, so the one-level unfolding here is
exactly the source's recursion. -/
noncomputable def lnGamma (z : ℚ) : ℝ :=
  if z < 1 / 2 then
    Real.log (Real.pi / Real.sin (Real.pi * (z : ℝ))) - lnGammaMain (1 - z)
  else lnGammaMain z

/-- Regularized lower incomplete gamma function `gammainc` (lines 92-129):
guard clauses, then the series expansion for `x < a + 1` and the continued
fraction otherwise, each scaled by `exp (-x + a ln x - lnGamma a)`. -/
noncomputable def gammainc (a x : ℚ) : ℝ :=
  if x < 0 ∨ a ≤ 0 then 0
  else if x = 0 then 0
  else if x < a + 1 then
    (gammaincSeries a x : ℝ) *
      Real.exp (-(x : ℝ) + (a : ℝ) * Real.log (x : ℝ) - lnGamma a)
  else
    1 - Real.exp (-(x : ℝ) + (a : ℝ) * Real.log (x : ℝ) - lnGamma a) *
      (gammaincCF a x : ℝ)

/-- Function `chiSquareCDF` (lines 83-87): `0` for negative `x`, else
`gammainc (k / 2) (x / 2)`. -/
noncomputable def chiSquareCDF (x k : ℚ) : ℝ :=
  if x < 0 then 0 else gammainc (k / 2) (x / 2)

/-- Return type of `mcnemarsTest`: the chi-square statistic (pure field
arithmetic, hence `ℚ`) and the p-value (transcendental, hence `ℝ`). -/
structure McNemarResult where
  chiSquare : ℚ
  pValue : ℝ

/-- Function `mcnemarsTest` (lines 62-78): `b` counts v1-wrong/v2-correct pairs,
`c` counts v1-correct/v2-wrong pairs.  If `b + c = 0` the result is
`{chiSquare := 0, pValue := 1}`; otherwise
`chiSquare = (|b - c| - 1)² / (b + c)` (continuity correction) and
`pValue = 1 - chiSquareCDF chiSquare 1`. -/
noncomputable def mcnemarsTest (b c : ℕ) : McNemarResult :=
  if b + c = 0 then ⟨0, 1⟩
  else
    let chi : ℚ := (jsAbs ((b : ℚ) - (c : ℚ)) - 1) ^ 2 / ((b : ℚ) + (c : ℚ))
    ⟨chi, 1 - chiSquareCDF chi 1⟩

/-- Return type of `confidenceInterval`. -/
structure ConfInterval where
  lower : ℝ
  upper : ℝ

/-- Function `confidenceInterval` (lines 164-181): difference in accuracy
`(b - c) / n`, paired standard error
`sqrt ((b + c - (b - c)² / n) / n²)`, and the 95% interval with `z = 1.96`. -/
noncomputable def confidenceInterval (n b c : ℕ) : ConfInterval :=
  let diff : ℝ := ((b : ℝ) - (c : ℝ)) / (n : ℝ)
  let se : ℝ :=
    Real.sqrt (((b : ℝ) + (c : ℝ) - ((b : ℝ) - (c : ℝ)) ^ 2 / (n : ℝ)) / (n : ℝ) ^ 2)
  ⟨diff - 1.96 * se, diff + 1.96 * se⟩

/-! ## Evaluation harness (scripts/evaluate.ts) data model -/

/-- The triage action enum of `TriageDecision` (src/triage.ts, line 11). -/
inductive Action
  | existing_ticket
  | new_bug
  | not_a_bug
  | needs_info
  | defer
  deriving DecidableEq, BEq, Repr

/-- The team enum (src/triage.ts, line 16). -/
inductive Team
  | platform
  | enterprise
  | ai
  | data
  deriving DecidableEq, BEq, Repr

/-- The confidence enum (src/triage.ts, line 13). -/
inductive Confidence
  | high
  | medium
  | low
  deriving DecidableEq, BEq, Repr

/-- The priority enum (src/triage.ts, line 19). -/
inductive Priority
  | urgent
  | high
  | medium
  | low
  deriving DecidableEq, BEq, Repr

/-- The `newTicket` payload of a `TriageDecision` (src/triage.ts,
lines 15-20). -/
structure NewTicket where
  team : Team
  title : String
  description : String
  priority : Priority
  deriving DecidableEq, BEq, Repr

/-- Interface `TriageDecision` (src/triage.ts, lines 10-21).  `ticketLink` and
`newTicket` are optional fields (`Option`; `none` models an absent /
`undefined` field). -/
structure TriageDecision where
  action : Action
  explanation : String
  confidence : Confidence
  ticketLink : Option String
  newTicket : Option NewTicket
  deriving DecidableEq, BEq, Repr

/-- The `expected` field of a `TestCase` (scripts/evaluate.ts, lines 41-46).
`action` has TypeScript type `... | null` (no `?`), so it is a plain
`Option`.  `team` has type `team?: ... | null`, which distinguishes an
absent field (JS `undefined`, modelled `none`) from an explicit `null`
(modelled `some none`) and from a value (modelled `some (some t)`); the
scoring code compares `team` against `null` with strict `===`, so the
distinction is observable.  `confidence` is modelled the same way. -/
structure TestCaseExpected where
  action : Option Action
  team : Option (Option Team)
  confidence : Option (Option Confidence)
  notes : Option String
  deriving DecidableEq, BEq, Repr

/-- A `TestCase` (scripts/evaluate.ts, lines 28-47), restricted to the fields
the scoring logic reads.  The candidate-issue list (`mockLinearResults`) only
feeds the external decision call, which is modelled as a function parameter
`decideFn` below, so it is absorbed into that parameter. -/
structure TestCase where
  id : String
  message : String
  reporter : String
  expected : TestCaseExpected
  deriving DecidableEq, BEq, Repr

/-- An `EvalResult` (scripts/evaluate.ts, lines 54-61): `actionMatch` and
`teamMatch` are `boolean | null` in the source, modelled `Option Bool` with
`none` for `null` ("not applicable"). -/
structure EvalResult where
  id : String
  expected : TestCaseExpected
  actual : TriageDecision
  actionMatch : Option Bool
  teamMatch : Option Bool
  notes : String
  deriving DecidableEq, BEq, Repr

/-- Scoring of one successfully triaged case (scripts/evaluate.ts,
lines 185-201):
`actionMatch = expected.action === null ? null : decision.action === expected.action`;
`teamMatch = expected.team === null || expected.action !== 'new_bug' ? null
           : decision.newTicket?.team === expected.team`.
In the `else` branch `expected.team` is `undefined` or a team value (it is
not `null` there), and `decision.newTicket?.team` is `undefined` or a team
value; JS strict equality on these is `Option Team` equality, with
`tc.expected.team.bind id` flattening the modelled `undefined`/value. -/
def scoreSuccess (tc : TestCase) (decision : TriageDecision) : EvalResult :=
  let actionMatch : Option Bool :=
    match tc.expected.action with
    | none => none
    | some a => some (decision.action == a)
  let teamMatch : Option Bool :=
    if tc.expected.team = some none ∨ tc.expected.action ≠ some Action.new_bug then none
    else some (decision.newTicket.map (fun t => t.team) == tc.expected.team.bind id)
  { id := tc.id, expected := tc.expected, actual := decision,
    actionMatch := actionMatch, teamMatch := teamMatch,
    notes := tc.expected.notes.getD "" }

/-- Scoring of a case whose decision call threw (scripts/evaluate.ts,
lines 206-220): a synthetic `needs_info`/`low` decision carrying the error,
with `actionMatch = false` and `teamMatch = null`. -/
def scoreFailure (tc : TestCase) (err : String) : EvalResult :=
  { id := tc.id, expected := tc.expected,
    actual := { action := Action.needs_info, explanation := "Error: " ++ err,
                confidence := Confidence.low, ticketLink := none, newTicket := none },
    actionMatch := some false, teamMatch := none,
    notes := "Error: " ++ err }

/-- The per-case loop of `main` (scripts/evaluate.ts, lines 151-223): each
case is pushed exactly one result; a thrown decision is caught per case and
the loop continues.  The external decision pipeline (Linear search plus
`triageBug`) is the function parameter `decideFn`; `Except.error` models a
throw. -/
def evalCases (decideFn : TestCase → Except String TriageDecision)
    (cases : List TestCase) : List EvalResult :=
  cases.map fun tc =>
    match decideFn tc with
    | Except.ok d => scoreSuccess tc d
    | Except.error e => scoreFailure tc e

/-- Variable `labeled` in `generateReport` (scripts/evaluate.ts, line 239):
the results with `actionMatch !== null`. -/
def labeledResults (results : List EvalResult) : List EvalResult :=
  results.filter fun r => r.actionMatch.isSome

/-- Variable `correct` in `generateReport` (line 240): the labeled results with
`actionMatch === true`. -/
def correctResults (results : List EvalResult) : List EvalResult :=
  (labeledResults results).filter fun r => r.actionMatch == some true

/-- Numerator of the reported accuracy (`correct.length`). -/
def reportAccuracyNum (results : List EvalResult) : ℕ :=
  (correctResults results).length

/-- Denominator of the reported accuracy (`labeled.length`). -/
def reportAccuracyDen (results : List EvalResult) : ℕ :=
  (labeledResults results).length

/-- JS `Math.round` on rationals: round half toward positive infinity. -/
def jsRound (q : ℚ) : ℤ := ⌊q + 1 / 2⌋

/-- The rounded accuracy percentage of `generateReport` (line 241):
`labeled.length > 0 ? Math.round((correct.length / labeled.length) * 100) : 0`. -/
def reportAccuracyPct (results : List EvalResult) : ℤ :=
  if 0 < reportAccuracyDen results then
    jsRound ((reportAccuracyNum results : ℚ) / (reportAccuracyDen results : ℚ) * 100)
  else 0

/-! ## Feedback manager (src/feedback.ts) -/

/-- A `TriageLog` entry (src/feedback.ts, lines 31-38). -/
structure TriageLog where
  messageTs : String
  messageText : String
  decision : TriageDecision
  timestamp : String
  reporter : String
  wasCorrect : Option Bool
  deriving DecidableEq, BEq, Repr

/-- Method `FeedbackManager.logDecision` (src/feedback.ts, lines 109-132), acting on
the in-memory `history.logs` array: push one entry with `wasCorrect = null`,
then `if (logs.length > 1000) logs = logs.slice(-1000)`.  The wall-clock
timestamp written by the source is passed in as `stamp`. -/
def logDecision (history : List TriageLog) (messageTs messageText : String)
    (decision : TriageDecision) (reporter : String) (stamp : String) : List TriageLog :=
  let log : TriageLog :=
    { messageTs := messageTs, messageText := messageText, decision := decision,
      timestamp := stamp, reporter := reporter, wasCorrect := none }
  let logs1 := history ++ [log]
  if logs1.length > 1000 then logs1.drop (logs1.length - 1000) else logs1

/-! ## Response parser/validator (src/triage.ts, `parseResponse`) -/

/-- JSON values, as produced by `JSON.parse`. -/
inductive Json where
  | null
  | bool (b : Bool)
  | num (q : ℚ)
  | str (s : String)
  | arr (elems : List Json)
  | obj (fields : List (String × Json))

/-- JS property access `parsed.key` on a parsed JSON object (fields of a
parsed object are unique, so first-match lookup is exact); `none` models
`undefined`. -/
def Json.getField : Json → String → Option Json
  | Json.obj fields, key => fields.lookup key
  | _, _ => none

/-- JS truthiness of a parsed JSON value (`!parsed.action` etc.):
`null`, `false`, `0` and `""` are falsy; arrays and objects are truthy. -/
def Json.truthy : Json → Bool
  | Json.null => false
  | Json.bool b => b
  | Json.num q => !(q = 0 : Bool)
  | Json.str s => !(s = "" : Bool)
  | Json.arr _ => true
  | Json.obj _ => true

/-- Array `validActions` of `parseResponse` (src/triage.ts, line 442). -/
def validActions : List String :=
  ["existing_ticket", "new_bug", "not_a_bug", "needs_info", "defer"]

/-- The validation stage of `parseResponse` (src/triage.ts, lines 433-447),
acting on the value returned by `JSON.parse` (the trim, code-fence stripping
and `JSON.parse` itself are external string processing preceding this):
reject if `action`, `explanation` or `confidence` is falsy, reject if
`action` is not in `validActions` (`Array.includes` is `false` for any
non-string `action`), and otherwise return the parsed value unchanged
(`return parsed as TriageDecision` — an unchecked cast). -/
def parseResponseChecks (parsed : Json) : Except String Json :=
  if !((parsed.getField "action").getD Json.null).truthy
      || !((parsed.getField "explanation").getD Json.null).truthy
      || !((parsed.getField "confidence").getD Json.null).truthy then
    Except.error "Missing required fields in response"
  else
    match parsed.getField "action" with
    | some (Json.str a) =>
      if validActions.contains a then Except.ok parsed
      else Except.error ("Invalid action: " ++ a)
    | _ => Except.error "Invalid action: (non-string action value)"

/-! ## Significance-comparator input parsing (scripts/eval-significance.ts) -/

/-- JS `String.prototype.split` with a single-character separator: split at
every occurrence, keeping empty fields. -/
def splitOnChar (sep : Char) : List Char → List (List Char)
  | [] => [[]]
  | c :: rest =>
    match splitOnChar sep rest with
    | [] => if c = sep then [[], []] else [[c]]
    | t :: ts => if c = sep then [] :: t :: ts else (c :: t) :: ts

/-- The character class of the JS regex `\s` (also used by `trim`). -/
def isJsSpace (ch : Char) : Bool :=
  let n := ch.toNat
  n = 9 || n = 10 || n = 11 || n = 12 || n = 13 || n = 32 ||
  n = 0xa0 || n = 0x1680 || decide (0x2000 ≤ n ∧ n ≤ 0x200a) ||
  n = 0x2028 || n = 0x2029 || n = 0x202f || n = 0x205f || n = 0x3000 || n = 0xfeff

/-- JS `String.prototype.trim`: drop leading and trailing whitespace. -/
def jsTrim (l : List Char) : List Char :=
  ((l.dropWhile isJsSpace).reverse.dropWhile isJsSpace).reverse

/-- A row of `parseResultsFile` (scripts/eval-significance.ts, lines 13-18):
`actionMatch` is the boolean `actionIcon === '✅'` — the parser has no
"not applicable" state, an `⚪` icon parses to `false`. -/
structure ParsedResult where
  caseId : List Char
  expected : List Char
  got : List Char
  actionMatch : Bool
  deriving DecidableEq, BEq

/-- JS `Map.prototype.set` on an association list: replace the value in
place if the key is present, else append. -/
def mapSet (m : List (List Char × ParsedResult)) (k : List Char) (v : ParsedResult) :
    List (List Char × ParsedResult) :=
  if m.any (fun p => p.1 == k) then
    m.map fun p => if p.1 == k then (k, v) else p
  else m ++ [(k, v)]

/-- One line of the `parseResultsFile` loop (scripts/eval-significance.ts,
lines 27-49), threading the `(inTable, results)` state. -/
def parseResultsLine (st : Bool × List (List Char × ParsedResult)) (line : List Char) :
    Bool × List (List Char × ParsedResult) :=
  let inTable := st.1
  let results := st.2
  if ("| Case ID |".toList).isPrefixOf line then (true, results)
  else if ("|---".toList).isPrefixOf line then (inTable, results)
  else if !inTable then (inTable, results)
  else if !(['|'].isPrefixOf line) then (false, results)
  else
    let cols := ((splitOnChar '|' line).map jsTrim).filter fun c => !c.isEmpty
    if cols.length < 4 then (inTable, results)
    else
      match cols with
      | caseId :: expected :: got :: actionIcon :: _ =>
        (inTable,
          mapSet results caseId
            ⟨caseId, expected, got, actionIcon == ['✅']⟩)
      | _ => (inTable, results)

/-- Function `parseResultsFile` (scripts/eval-significance.ts, lines 20-52): split the
file on newlines and fold the line parser; the result models the returned
`Map` (insertion-ordered, unique keys). -/
def parseResultsFile (content : List Char) : List (List Char × ParsedResult) :=
  ((splitOnChar '\n' content).foldl parseResultsLine (false, [])).2

/-- The 2×2 contingency table of `main` (scripts/eval-significance.ts,
lines 211-214). -/
structure Contingency where
  a : ℕ
  b : ℕ
  c : ℕ
  d : ℕ
  deriving DecidableEq, BEq, Repr

/-- One iteration of the contingency-table loop of `main`
(scripts/eval-significance.ts, lines 218-233): a case of `v1Results` absent
from `v2Results` is skipped; a shared case is classified into exactly one of
the four buckets by the pair of parsed `actionMatch` booleans. -/
def contingencyStep (v2Results : List (List Char × ParsedResult))
    (t : Contingency) (p : List Char × ParsedResult) : Contingency :=
  match v2Results.lookup p.1 with
  | none => t
  | some v2 =>
    if p.2.actionMatch && v2.actionMatch then { t with a := t.a + 1 }
    else if !p.2.actionMatch && v2.actionMatch then { t with b := t.b + 1 }
    else if p.2.actionMatch && !v2.actionMatch then { t with c := t.c + 1 }
    else { t with d := t.d + 1 }

/-- The contingency table built by `main` (scripts/eval-significance.ts,
lines 211-233), folded over the iteration order of the `v1Results` map. -/
def buildContingency (v1Results v2Results : List (List Char × ParsedResult)) :
    Contingency :=
  v1Results.foldl (contingencyStep v2Results) ⟨0, 0, 0, 0⟩

/-! ## Keyword extractor (src/triage.ts, `extractKeywords`) -/

/-- The character class of the JS regex `\w`: `[A-Za-z0-9_]`. -/
def isWordChar (ch : Char) : Bool :=
  ch.isAlpha || ch.isDigit || ch == '_'

/-- Length of the match of `/<@[A-Z0-9]+>/` at the head of the input, if
any: `<`, `@`, a maximal nonempty run of `[A-Z0-9]`, `>`.  The run class
excludes `>`, so the greedy run needs no backtracking. -/
def mentionMatchLen (l : List Char) : Option ℕ :=
  match l with
  | '<' :: '@' :: rest =>
    let run := rest.takeWhile fun ch => ch.isUpper || ch.isDigit
    if run.isEmpty then none
    else
      match rest.drop run.length with
      | '>' :: _ => some (2 + run.length + 1)
      | _ => none
  | _ => none

/-- Left-to-right global scan of `.replace(/<@[A-Z0-9]+>/g, '')`
(src/triage.ts, line 460); `fuel` is the input length, and every step
consumes at least one character. -/
def removeMentionsGo : ℕ → List Char → List Char
  | 0, _ => []
  | _, [] => []
  | fuel + 1, c :: rest =>
    match mentionMatchLen (c :: rest) with
    | some k => removeMentionsGo fuel ((c :: rest).drop k)
    | none => c :: removeMentionsGo fuel rest

/-- Step `.replace(/<@[A-Z0-9]+>/g, '')` (src/triage.ts, line 460). -/
def removeMentions (l : List Char) : List Char :=
  removeMentionsGo l.length l

/-- Length of the match of `/<https?:\/\/[^|>]+(?:\|[^>]+)?>/` at the head
of the input, if any.  The greedy runs `[^|>]+` and `[^>]+` exclude their
terminators, so the deterministic maximal-run scan coincides with the
backtracking regex. -/
def slackUrlMatchLen (l : List Char) : Option ℕ :=
  match l with
  | '<' :: rest =>
    let scheme : Option (ℕ × List Char) :=
      match rest with
      | 'h' :: 't' :: 't' :: 'p' :: 's' :: ':' :: '/' :: '/' :: r => some (8, r)
      | 'h' :: 't' :: 't' :: 'p' :: ':' :: '/' :: '/' :: r => some (7, r)
      | _ => none
    match scheme with
    | none => none
    | some (k, r) =>
      let body := r.takeWhile fun ch => !(ch == '|' || ch == '>')
      if body.isEmpty then none
      else
        match r.drop body.length with
        | '>' :: _ => some (1 + k + body.length + 1)
        | '|' :: r3 =>
          let label := r3.takeWhile fun ch => !(ch == '>')
          if label.isEmpty then none
          else
            match r3.drop label.length with
            | '>' :: _ => some (1 + k + body.length + 1 + label.length + 1)
            | _ => none
        | _ => none
  | _ => none

/-- Left-to-right global scan of
`.replace(/<https?:\/\/[^|>]+(?:\|[^>]+)?>/g, '')` (src/triage.ts,
line 461). -/
def removeSlackUrlsGo : ℕ → List Char → List Char
  | 0, _ => []
  | _, [] => []
  | fuel + 1, c :: rest =>
    match slackUrlMatchLen (c :: rest) with
    | some k => removeSlackUrlsGo fuel ((c :: rest).drop k)
    | none => c :: removeSlackUrlsGo fuel rest

/-- Step `.replace(/<https?:\/\/[^|>]+(?:\|[^>]+)?>/g, '')` (line 461). -/
def removeSlackUrls (l : List Char) : List Char :=
  removeSlackUrlsGo l.length l

/-- Length of the match of `/https?:\/\/\S+/` at the head of the input, if
any: the scheme, then a maximal nonempty run of non-whitespace. -/
def plainUrlMatchLen (l : List Char) : Option ℕ :=
  match l with
  | 'h' :: 't' :: 't' :: 'p' :: 's' :: ':' :: '/' :: '/' :: r =>
    let run := r.takeWhile fun ch => !isJsSpace ch
    if run.isEmpty then none else some (8 + run.length)
  | 'h' :: 't' :: 't' :: 'p' :: ':' :: '/' :: '/' :: r =>
    let run := r.takeWhile fun ch => !isJsSpace ch
    if run.isEmpty then none else some (7 + run.length)
  | _ => none

/-- Left-to-right global scan of `.replace(/https?:\/\/\S+/g, '')`
(src/triage.ts, line 462). -/
def removePlainUrlsGo : ℕ → List Char → List Char
  | 0, _ => []
  | _, [] => []
  | fuel + 1, c :: rest =>
    match plainUrlMatchLen (c :: rest) with
    | some k => removePlainUrlsGo fuel ((c :: rest).drop k)
    | none => c :: removePlainUrlsGo fuel rest

/-- Step `.replace(/https?:\/\/\S+/g, '')` (line 462). -/
def removePlainUrls (l : List Char) : List Char :=
  removePlainUrlsGo l.length l

/-- Step `.replace(/[^\w\s-]/g, ' ')` (src/triage.ts, line 463): a per-character
replacement, since the class matches single characters. -/
def replaceSpecial (l : List Char) : List Char :=
  l.map fun ch => if isWordChar ch || isJsSpace ch || ch == '-' then ch else ' '

/-- JS `.toLowerCase()` (line 464).  After `replaceSpecial` every character
is ASCII-word, whitespace or `-`, on which `Char.toLower` agrees with the
Unicode-aware JS lowercasing. -/
def jsToLower (l : List Char) : List Char :=
  l.map Char.toLower

/-- JS `.split(/\s+/)` (src/triage.ts, line 467): fields between maximal
whitespace runs, including the empty leading/trailing fields JS produces
when the string starts or ends with whitespace (`''.split` gives `['']`).
`acc` is the current field (reversed), `prevSpace` records whether the
previous character was whitespace. -/
def splitWsGo : List Char → List Char → Bool → List (List Char)
  | [], acc, _ => [acc.reverse]
  | ch :: rest, acc, prevSpace =>
    if isJsSpace ch then
      if prevSpace then splitWsGo rest acc true
      else acc.reverse :: splitWsGo rest [] true
    else splitWsGo rest (ch :: acc) false

/-- JS `.split(/\s+/)` on a whole string. -/
def splitWs (l : List Char) : List (List Char) :=
  splitWsGo l [] false

/-- The stop-word list of `extractKeywords` (src/triage.ts, lines 469-554),
in source order. -/
def stopWords : List (List Char) :=
  ["the", "is", "are", "was", "were", "be", "been", "being", "have", "has",
   "had", "do", "does", "did", "will", "would", "could", "should", "may",
   "might", "must", "shall", "can", "need", "dare", "ought", "used", "a",
   "an", "and", "but", "or", "for", "nor", "on", "at", "to", "from", "by",
   "with", "in", "of", "it", "its", "this", "that", "these", "those", "i",
   "you", "he", "she", "we", "they", "me", "him", "her", "us", "them", "my",
   "your", "his", "our", "their", "not", "no", "yes", "just", "only", "also",
   "very", "too", "so", "as", "if", "when", "where", "why", "how", "what",
   "which", "who", "whom", "whose"].map String.toList

/-- The cleaned, lowercased text of `extractKeywords` (src/triage.ts,
lines 459-464), split into words (line 467). -/
def keywordSource (message : List Char) : List (List Char) :=
  splitWs (jsToLower (replaceSpecial (removePlainUrls (removeSlackUrls (removeMentions message)))))

/-- The token-sequence form of `extractKeywords` (src/triage.ts,
lines 457-560): filter out words of length `≤ 2` and stop-words (line 555),
keep the first 8 (line 559). -/
def extractKeywordsList (message : List Char) : List (List Char) :=
  ((keywordSource message).filter fun w =>
    decide (2 < w.length) && !(stopWords.contains w)).take 8

/-- Function `extractKeywords` (src/triage.ts, lines 457-560): the kept tokens joined
with single spaces (`.join(' ')`, line 559). -/
def extractKeywords (message : List Char) : List Char :=
  List.intercalate [' '] (extractKeywordsList message)

/-! ## Concrete instances used by counterexamples and witnesses -/

/-- A fixed decision payload used by concrete scenarios. -/
def decision0 : TriageDecision :=
  { action := Action.defer, explanation := "needs review",
    confidence := Confidence.medium, ticketLink := none, newTicket := none }

/-- A decision that carries a `new_bug` ticket payload for team `platform`. -/
def decisionPlat : TriageDecision :=
  { action := Action.new_bug, explanation := "clear breakage",
    confidence := Confidence.high, ticketLink := none,
    newTicket := some { team := Team.platform, title := "403 on events page",
                        description := "repro", priority := Priority.high } }

/-- A labeled test case whose `expected.action` is `new_bug` but whose
`expected.team` field is absent (JS `undefined`, not `null`). -/
def tcTeamAbsent : TestCase :=
  { id := "T-ABS", message := "403 error on /events page", reporter := "U1",
    expected := { action := some Action.new_bug, team := none,
                  confidence := none, notes := none } }

/-- A labeled `not_a_bug` test case that nevertheless carries a team value. -/
def tcNotBugWithTeam : TestCase :=
  { id := "T-NAB", message := "how do I filter by date", reporter := "U2",
    expected := { action := some Action.not_a_bug, team := some (some Team.platform),
                  confidence := none, notes := none } }

/-- An unlabeled test case (`expected.action = null`). -/
def tcUnlabeled : TestCase :=
  { id := "T-UNL", message := "weird thing happened", reporter := "U3",
    expected := { action := none, team := none, confidence := none, notes := none } }

/-- A ten-case corpus of which exactly three cases are unlabeled. -/
def corpus10 : List TestCase :=
  [{ tcNotBugWithTeam with id := "C1" }, { tcNotBugWithTeam with id := "C2" },
   { tcNotBugWithTeam with id := "C3" }, { tcTeamAbsent with id := "C4" },
   { tcTeamAbsent with id := "C5" }, { tcTeamAbsent with id := "C6" },
   { tcTeamAbsent with id := "C7" },
   { tcUnlabeled with id := "C8" }, { tcUnlabeled with id := "C9" },
   { tcUnlabeled with id := "C10" }]

/-- A decision function that always succeeds with `decision0`. -/
def decideFnOk : TestCase → Except String TriageDecision :=
  fun _ => Except.ok decision0

/-- A decision function that always throws. -/
def decideFnErr : TestCase → Except String TriageDecision :=
  fun _ => Except.error "ECONNRESET"

/-- A parsed oracle response with `action = "defer"` and a `ticketLink`
present — a decision violating the presence invariant of §3. -/
def badDecisionJson : Json :=
  Json.obj
    [("action", Json.str "defer"),
     ("explanation", Json.str "looks like an earlier report"),
     ("confidence", Json.str "low"),
     ("ticketLink", Json.str "https://linear.app/apolitical/issue/APO-1")]

/-- Markdown report (version 1) whose single case `T1` is unlabeled: its
action icon is `⚪`, the icon `generateReport` writes for
`actionMatch = null`. -/
def reportV1 : List Char :=
  ("| Case ID | Expected | Got | Action | Team | Notes |\n" ++
   "|---------|----------|-----|--------|------|-------|\n" ++
   "| T1 | unlabeled | defer | ⚪ |  |  |\n").toList

/-- Markdown report (version 2) whose single case `T1` is labeled and
correct (`✅`). -/
def reportV2 : List Char :=
  ("| Case ID | Expected | Got | Action | Team | Notes |\n" ++
   "|---------|----------|-----|--------|------|-------|\n" ++
   "| T1 | new_bug | new_bug | ✅ |  |  |\n").toList

/-- The example message of §8 of the spec. -/
def exMessage : List Char :=
  "Hey <@U123> the dashboard is broken".toList

/-- A triage-history log entry distinct from every other entry used here. -/
def log0 : TriageLog :=
  { messageTs := "1700000000.000100", messageText := "first report",
    decision := decision0, timestamp := "2024-01-01T00:00:00Z",
    reporter := "U1", wasCorrect := none }

/-- Filler log entries for a full 1000-entry history. -/
def logFill : TriageLog :=
  { log0 with messageTs := "1700000000.000200" }

/-! ## General lemmas -/

/-- Lemma: `jsAbs` is the absolute value on `ℚ`. -/
theorem jsAbs_eq_abs (q : ℚ) : jsAbs q = |q| := by
  unfold jsAbs
  split
  · exact (abs_of_neg (by assumption)).symm
  · exact (abs_of_nonneg (le_of_not_lt (by assumption))).symm

/-! ## Claim theorems -/

/-- C1: for non-negative integer discordant counts `b` and `c`, the paired
significance comparator returns `chiSquare = 0` and `pValue = 1` when
`b + c = 0`, and otherwise `chiSquare = (|b - c| - 1)² / (b + c)`; in
particular `b = c = k > 0` yields `chiSquare = 1 / (2k)` — e.g. `0.1` at
`b = c = 5` — which is nonzero. -/
theorem C1_mcnemar_statistic (b c k : ℕ) (hk : 0 < k) :
    (b + c = 0 → (mcnemarsTest b c).chiSquare = 0 ∧ (mcnemarsTest b c).pValue = 1) ∧
    (b + c ≠ 0 →
      (mcnemarsTest b c).chiSquare
        = (|(b : ℚ) - (c : ℚ)| - 1) ^ 2 / ((b : ℚ) + (c : ℚ))) ∧
    (mcnemarsTest k k).chiSquare = 1 / (2 * (k : ℚ)) ∧
    (mcnemarsTest 5 5).chiSquare = 1 / 10 ∧
    (mcnemarsTest k k).chiSquare ≠ 0 := by
  have hkq : (0 : ℚ) < (k : ℚ) := by exact_mod_cast hk
  have hkk : k + k ≠ 0 := by omega
  have hchi : (mcnemarsTest k k).chiSquare = 1 / (2 * (k : ℚ)) := by
    simp only [mcnemarsTest, hkk, if_false, jsAbs_eq_abs, sub_self, abs_zero]
    ring_nf
  refine ⟨fun h => ?_, fun h => ?_, hchi, ?_, ?_⟩
  · simp [mcnemarsTest, h]
  · simp only [mcnemarsTest, h, if_false, jsAbs_eq_abs]
  · simp only [mcnemarsTest, (by norm_num : 5 + 5 ≠ 0), if_false, jsAbs_eq_abs]
    norm_num
  · rw [hchi]
    positivity

/-- Witness for C1 at `b = c = 0` and `b = c = 5`. -/
theorem C1_mcnemar_statistic_witness :
    ((0 : ℕ) + 0 = 0) ∧ (mcnemarsTest 0 0).chiSquare = 0 ∧
      (mcnemarsTest 0 0).pValue = 1 ∧ (mcnemarsTest 5 5).chiSquare = 1 / 10 :=
  ⟨rfl, ((C1_mcnemar_statistic 0 0 5 (by decide)).1 rfl).1,
    ((C1_mcnemar_statistic 0 0 5 (by decide)).1 rfl).2,
    (C1_mcnemar_statistic 0 0 5 (by decide)).2.2.2.1⟩

/-- C5: for non-negative integers `b`, `c` and positive `n`, the 95%
confidence interval on the accuracy delta is centered at `(b - c) / n` with
standard error `sqrt ((b + c - (b - c)² / n) / n²)`: the returned bounds are
`center ∓ 1.96 · SE`. -/
theorem C5_confidence_interval (n b c : ℕ) (_hn : 0 < n) :
    (confidenceInterval n b c).lower
        = ((b : ℝ) - (c : ℝ)) / (n : ℝ)
          - 1.96 * Real.sqrt (((b : ℝ) + (c : ℝ) - ((b : ℝ) - (c : ℝ)) ^ 2 / (n : ℝ)) / (n : ℝ) ^ 2) ∧
    (confidenceInterval n b c).upper
        = ((b : ℝ) - (c : ℝ)) / (n : ℝ)
          + 1.96 * Real.sqrt (((b : ℝ) + (c : ℝ) - ((b : ℝ) - (c : ℝ)) ^ 2 / (n : ℝ)) / (n : ℝ) ^ 2) :=
  ⟨rfl, rfl⟩

/-- Witness for C5 at `n = 4`, `b = 2`, `c = 1`. -/
theorem C5_confidence_interval_witness :
    0 < 4 ∧
      (confidenceInterval 4 2 1).lower
        = ((2 : ℝ) - (1 : ℝ)) / (4 : ℝ)
          - 1.96 * Real.sqrt (((2 : ℝ) + (1 : ℝ) - ((2 : ℝ) - (1 : ℝ)) ^ 2 / (4 : ℝ)) / (4 : ℝ) ^ 2) := by
  refine ⟨by decide, ?_⟩
  have h := (C5_confidence_interval 4 2 1 (by decide)).1
  simpa using h

/-- C7: whenever the decision function throws for a case, the harness
records a synthetic decision with action `needs_info`, confidence `low` and
an explanation carrying the error, with `actionMatch = false` and never
"not applicable", and the batch continues: every case still produces exactly
one result. -/
theorem C7_failure_handling (decideFn : TestCase → Except String TriageDecision)
    (cases : List TestCase) (tc : TestCase) (e : String)
    (htc : tc ∈ cases) (herr : decideFn tc = Except.error e) :
    (evalCases decideFn cases).length = cases.length ∧
    scoreFailure tc e ∈ evalCases decideFn cases ∧
    (scoreFailure tc e).actual.action = Action.needs_info ∧
    (scoreFailure tc e).actual.confidence = Confidence.low ∧
    (scoreFailure tc e).actual.explanation = "Error: " ++ e ∧
    (scoreFailure tc e).actionMatch = some false ∧
    (scoreFailure tc e).actionMatch ≠ none := by
  refine ⟨by simp [evalCases], ?_, rfl, rfl, rfl, rfl, by simp [scoreFailure]⟩
  have h2 : (fun c => match decideFn c with
      | Except.ok d => scoreSuccess c d
      | Except.error err => scoreFailure c err) tc = scoreFailure tc e := by
    simp only [herr]
  have h3 := List.mem_map_of_mem (fun c => match decideFn c with
      | Except.ok d => scoreSuccess c d
      | Except.error err => scoreFailure c err) htc
  rw [h2] at h3
  exact h3

/-- Witness for C7: a two-case batch with a throwing decision function. -/
theorem C7_failure_handling_witness :
    tcUnlabeled ∈ [tcNotBugWithTeam, tcUnlabeled] ∧
    decideFnErr tcUnlabeled = Except.error "ECONNRESET" ∧
    (evalCases decideFnErr [tcNotBugWithTeam, tcUnlabeled]).length = 2 ∧
    scoreFailure tcUnlabeled "ECONNRESET" ∈ evalCases decideFnErr [tcNotBugWithTeam, tcUnlabeled] ∧
    (scoreFailure tcUnlabeled "ECONNRESET").actionMatch = some false := by
  have h := C7_failure_handling decideFnErr [tcNotBugWithTeam, tcUnlabeled]
    tcUnlabeled "ECONNRESET" (by simp) rfl
  exact ⟨by simp, rfl, h.1, h.2.1, h.2.2.2.2.2.1⟩

/-- C6 counterexample: a case whose `expectedOutcome.action` is `new_bug`
but whose `expectedOutcome.team` field is absent (JS `undefined`, which the
source's strict `=== null` check does not catch) gets a boolean `teamMatch`,
not "not applicable" — refuting the claim that `teamMatch` is NA whenever
the team is unset. -/
theorem C6_counterexample :
    tcTeamAbsent.expected.action = some Action.new_bug ∧
    tcTeamAbsent.expected.team = none ∧
    (scoreSuccess tcTeamAbsent decisionPlat).teamMatch = some false := by
  refine ⟨rfl, rfl, ?_⟩
  simp [scoreSuccess, tcTeamAbsent, decisionPlat]

/-- C6 (amended): `teamMatch` is "not applicable" whenever
`expectedOutcome.action ≠ new_bug` (even if both sides carry a team value)
or `expectedOutcome.team` is literally `null`; when the action is `new_bug`
and the team field is a value or absent, `teamMatch` is the strict equality
of `decision.newTicketPayload?.team` with `expectedOutcome.team`. -/
theorem C6_team_match (tc : TestCase) (d : TriageDecision) :
    (tc.expected.action ≠ some Action.new_bug → (scoreSuccess tc d).teamMatch = none) ∧
    (tc.expected.team = some none → (scoreSuccess tc d).teamMatch = none) ∧
    (tc.expected.action = some Action.new_bug → tc.expected.team ≠ some none →
      (scoreSuccess tc d).teamMatch
        = some (d.newTicket.map (fun t => t.team) == tc.expected.team.bind id)) := by
  refine ⟨fun h => ?_, fun h => ?_, fun h1 h2 => ?_⟩
  · simp [scoreSuccess, h]
  · simp [scoreSuccess, h]
  · simp [scoreSuccess, h1, h2]

/-- Witness for C6: a `not_a_bug` case carrying a team value on both sides
still gets `teamMatch` = "not applicable". -/
theorem C6_team_match_witness :
    tcNotBugWithTeam.expected.action ≠ some Action.new_bug ∧
    tcNotBugWithTeam.expected.team = some (some Team.platform) ∧
    (decisionPlat.newTicket.map fun t => t.team) = some Team.platform ∧
    (scoreSuccess tcNotBugWithTeam decisionPlat).teamMatch = none :=
  ⟨by decide, rfl, rfl, (C6_team_match tcNotBugWithTeam decisionPlat).1 (by decide)⟩

/-- C10 counterexample: with 1000 entries already in the history, logging a
new decision evicts the oldest entry — the log is not append-only. -/
theorem C10_counterexample :
    (log0 :: List.replicate 999 logFill).length = 1000 ∧
    log0 ∈ (log0 :: List.replicate 999 logFill) ∧
    log0 ∉ logDecision (log0 :: List.replicate 999 logFill)
        "1700000001.000300" "new report" decision0 "U9" "2024-01-02T00:00:00Z" := by
  have hlen : (log0 :: List.replicate 999 logFill).length = 1000 := by
    rw [List.length_cons, List.length_replicate]
  refine ⟨hlen, List.mem_cons_self _ _, ?_⟩
  have heq : logDecision (log0 :: List.replicate 999 logFill)
      "1700000001.000300" "new report" decision0 "U9" "2024-01-02T00:00:00Z"
      = List.replicate 999 logFill ++
        [{ messageTs := "1700000001.000300", messageText := "new report",
           decision := decision0, timestamp := "2024-01-02T00:00:00Z",
           reporter := "U9", wasCorrect := none }] := by
    simp only [logDecision]
    rw [if_pos (by rw [List.length_append, hlen, List.length_singleton]; omega)]
    rw [List.length_append, hlen, List.length_singleton, List.cons_append,
      (by norm_num : (1000 + 1 - 1000 : ℕ) = 1), List.drop_one, List.tail_cons]
  rw [heq]
  intro hmem
  rcases List.mem_append.1 hmem with h | h
  · exact absurd (List.eq_of_mem_replicate h) (by decide)
  · simp only [List.mem_singleton] at h
    exact absurd h (by decide)

/-- C10 (amended): logging appends exactly one entry with
`wasCorrect = null` at the end of the history; every previously recorded
entry is preserved as long as the history held fewer than 1000 entries, but
once the appended log would exceed 1000 entries it is truncated to the most
recent 1000, evicting the oldest entries. -/
theorem C10_log_decision (history : List TriageLog)
    (ts text rep stamp : String) (d : TriageDecision) :
    (logDecision history ts text d rep stamp).getLast?
        = some { messageTs := ts, messageText := text, decision := d,
                 timestamp := stamp, reporter := rep, wasCorrect := none } ∧
    (history.length < 1000 →
      logDecision history ts text d rep stamp
        = history ++ [{ messageTs := ts, messageText := text, decision := d,
                        timestamp := stamp, reporter := rep, wasCorrect := none }]) ∧
    (logDecision history ts text d rep stamp).length = min (history.length + 1) 1000 := by
  simp only [logDecision]
  set newLog : TriageLog :=
    { messageTs := ts, messageText := text, decision := d,
      timestamp := stamp, reporter := rep, wasCorrect := none } with hnew
  by_cases hlen : (history ++ [newLog]).length > 1000
  · rw [if_pos hlen]
    rw [List.length_append, List.length_singleton] at hlen ⊢
    have hdrop : history.length + 1 - 1000 ≤ history.length := by omega
    rw [List.drop_append_of_le_length hdrop]
    refine ⟨List.getLast?_concat _, fun hcon => absurd hcon (by omega), ?_⟩
    rw [List.length_append, List.length_drop, List.length_singleton]
    omega
  · rw [if_neg hlen]
    rw [List.length_append, List.length_singleton] at hlen
    refine ⟨List.getLast?_concat _, fun _ => rfl, ?_⟩
    rw [List.length_append, List.length_singleton]
    omega

/-- Witness for C10: logging onto an empty history. -/
theorem C10_log_decision_witness :
    ([] : List TriageLog).length < 1000 ∧
    logDecision [] "ts1" "text1" decision0 "rep1" "stamp1"
      = [{ messageTs := "ts1", messageText := "text1", decision := decision0,
           timestamp := "stamp1", reporter := "rep1", wasCorrect := none }] := by
  refine ⟨by decide, ?_⟩
  have h := (C10_log_decision [] "ts1" "text1" "rep1" "stamp1" decision0).2.1 (by decide)
  simpa using h

/-- Helper for C3: folding the contingency step counts exactly the shared
cases — one increment, in some bucket, per `v1` entry whose case ID has a
`v2` entry. -/
theorem foldl_contingency_total (v2 : List (List Char × ParsedResult)) :
    ∀ (v1 : List (List Char × ParsedResult)) (t : Contingency),
      (v1.foldl (contingencyStep v2) t).a + (v1.foldl (contingencyStep v2) t).b
        + (v1.foldl (contingencyStep v2) t).c + (v1.foldl (contingencyStep v2) t).d
        = t.a + t.b + t.c + t.d + v1.countP (fun p => (v2.lookup p.1).isSome) := by
  intro v1
  induction v1 with
  | nil => intro t; simp
  | cons p rest ih =>
    intro t
    rw [List.foldl_cons, List.countP_cons, ih (contingencyStep v2 t p)]
    unfold contingencyStep
    cases h : v2.lookup p.1 with
    | none => simp
    | some q =>
      cases hm : p.2.actionMatch <;> cases hq : q.actionMatch <;> simp [hm, hq] <;> omega

/-- Helper for C3: the `a + c` margin (cases counted correct for the first
report) counts exactly the shared cases whose first-report `actionMatch`
parsed `true` — a `⚪` (not-applicable) row parsed `false` never lands
there. -/
theorem foldl_contingency_v1_correct (v2 : List (List Char × ParsedResult)) :
    ∀ (v1 : List (List Char × ParsedResult)) (t : Contingency),
      (v1.foldl (contingencyStep v2) t).a + (v1.foldl (contingencyStep v2) t).c
        = t.a + t.c + v1.countP (fun p => (v2.lookup p.1).isSome && p.2.actionMatch) := by
  intro v1
  induction v1 with
  | nil => intro t; simp
  | cons p rest ih =>
    intro t
    rw [List.foldl_cons, List.countP_cons, ih (contingencyStep v2 t p)]
    unfold contingencyStep
    cases h : v2.lookup p.1 with
    | none => simp
    | some q =>
      cases hm : p.2.actionMatch <;> cases hq : q.actionMatch <;> simp [hm, hq] <;> omega

/-- C3 counterexample: two parsed reports sharing the single case `T1`,
which is "not applicable" (icon `⚪`) in the first report and correct
(`✅`) in the second.  The source does not exclude it: it is parsed as
`actionMatch = false` and counted in bucket `b` of the contingency table,
so it contributes to the table (`a + b + c + d = 1`, not `0`). -/
theorem C3_counterexample :
    (parseResultsFile reportV1).lookup ("T1".toList)
        = some ⟨"T1".toList, "unlabeled".toList, "defer".toList, false⟩ ∧
    (parseResultsFile reportV2).lookup ("T1".toList)
        = some ⟨"T1".toList, "new_bug".toList, "new_bug".toList, true⟩ ∧
    buildContingency (parseResultsFile reportV1) (parseResultsFile reportV2)
      = ⟨0, 1, 0, 0⟩ := by
  refine ⟨?_, ?_, ?_⟩ <;> rfl

/-- C3 (amended): a case shared by both reports is never excluded from the
2×2 table, whatever its match icons: the four buckets always sum to the
number of shared cases.  A "not applicable" (`⚪`) entry is parsed as
`actionMatch = false` and therefore counted as incorrect for that report:
the `a + c` margin (first-report-correct) counts exactly the shared cases
whose first-report icon was `✅`. -/
theorem C3_na_counted_not_excluded (v1 v2 : List (List Char × ParsedResult)) :
    (buildContingency v1 v2).a + (buildContingency v1 v2).b
      + (buildContingency v1 v2).c + (buildContingency v1 v2).d
      = v1.countP (fun p => (v2.lookup p.1).isSome) ∧
    (buildContingency v1 v2).a + (buildContingency v1 v2).c
      = v1.countP (fun p => (v2.lookup p.1).isSome && p.2.actionMatch) := by
  constructor
  · have h := foldl_contingency_total v2 v1 ⟨0, 0, 0, 0⟩
    simpa [buildContingency] using h
  · have h := foldl_contingency_v1_correct v2 v1 ⟨0, 0, 0, 0⟩
    simpa [buildContingency] using h

/-- C4 counterexample: an unlabeled case (`expectedOutcome.action` unset)
whose decision call throws is scored `actionMatch = false`, not
"not applicable" — refuting the claimed equivalence between NA and an unset
expected action for every evaluation run. -/
theorem C4_counterexample :
    tcUnlabeled.expected.action = none ∧
    (evalCases decideFnErr [tcUnlabeled]).map (fun r => r.actionMatch) = [some false] :=
  ⟨rfl, rfl⟩

/-- Helper for C4: a successfully scored case has `actionMatch` present
exactly when the case is labeled. -/
theorem scoreSuccess_actionMatch_isSome (tc : TestCase) (d : TriageDecision) :
    (scoreSuccess tc d).actionMatch.isSome = tc.expected.action.isSome := by
  cases h : tc.expected.action <;> simp [scoreSuccess, h]

/-- Helper for C4: `correct.length` counts the results whose `actionMatch`
is `true` — the inner `labeled` filter is redundant. -/
theorem reportAccuracyNum_countP (results : List EvalResult) :
    reportAccuracyNum results = results.countP fun r => r.actionMatch == some true := by
  unfold reportAccuracyNum correctResults labeledResults
  rw [List.countP_eq_length_filter, List.filter_filter]
  congr 1
  apply List.filter_congr
  intro r _
  cases h : r.actionMatch with
  | none => simp
  | some b => simp

/-- C4 (amended): when the decision function succeeds on every case, a
result's `actionMatch` is "not applicable" iff the case is unlabeled, and is
otherwise the boolean `decision.action == expected.action` (for a throwing
decision the source instead forces `actionMatch = false`, see the
counterexample); the reported accuracy numerator counts the results with
`actionMatch = true`, its denominator counts the results with non-NA
`actionMatch` — under a fully successful run exactly the labeled cases, 7
and never 10 for a 10-case corpus with 3 unlabeled cases — and the reported
percentage is `round (100 · numerator / denominator)`. -/
theorem C4_accuracy (decideFn : TestCase → Except String TriageDecision)
    (cases : List TestCase)
    (hok : ∀ tc ∈ cases, ∃ d, decideFn tc = Except.ok d) :
    (∀ r ∈ evalCases decideFn cases,
        (r.actionMatch = none ↔ r.expected.action = none) ∧
        ∀ a, r.expected.action = some a → r.actionMatch = some (r.actual.action == a)) ∧
    reportAccuracyDen (evalCases decideFn cases)
      = (cases.countP fun tc => tc.expected.action.isSome) ∧
    reportAccuracyNum (evalCases decideFn cases)
      = ((evalCases decideFn cases).countP fun r => r.actionMatch == some true) ∧
    (0 < reportAccuracyDen (evalCases decideFn cases) →
      reportAccuracyPct (evalCases decideFn cases)
        = jsRound ((reportAccuracyNum (evalCases decideFn cases) : ℚ)
            / (reportAccuracyDen (evalCases decideFn cases) : ℚ) * 100)) := by
  refine ⟨?_, ?_, ?_, ?_⟩
  · intro r hr
    rw [evalCases, List.mem_map] at hr
    obtain ⟨tc, htc, hrtc⟩ := hr
    obtain ⟨d, hd⟩ := hok tc htc
    rw [hd] at hrtc
    subst hrtc
    constructor
    · cases hact : tc.expected.action <;> simp [scoreSuccess, hact]
    · intro a ha
      have ha2 : tc.expected.action = some a := ha
      simp [scoreSuccess, ha2]
  · revert hok
    induction cases with
    | nil => intro _; rfl
    | cons tc rest ih =>
      intro hok
      obtain ⟨d, hd⟩ := hok tc (List.mem_cons_self _ _)
      have hrest := ih fun x hx => hok x (List.mem_cons_of_mem _ hx)
      have hcons : evalCases decideFn (tc :: rest)
          = scoreSuccess tc d :: evalCases decideFn rest := by
        simp [evalCases, hd]
      rw [hcons, List.countP_cons]
      simp only [reportAccuracyDen, labeledResults, List.filter_cons,
        scoreSuccess_actionMatch_isSome] at hrest ⊢
      by_cases h : tc.expected.action.isSome = true
      · simp [h, hrest]
      · simp [h, hrest]
  · exact reportAccuracyNum_countP (evalCases decideFn cases)
  · intro h
    rw [reportAccuracyPct, if_pos h]

/-- Witness for C4: on the ten-case corpus with three unlabeled cases and an
always-succeeding decision function, the accuracy denominator is 7, not
10. -/
theorem C4_accuracy_witness :
    (∀ tc ∈ corpus10, ∃ d, decideFnOk tc = Except.ok d) ∧
    corpus10.length = 10 ∧
    (corpus10.countP fun tc => tc.expected.action.isSome) = 7 ∧
    reportAccuracyDen (evalCases decideFnOk corpus10) = 7 := by
  have hok : ∀ tc ∈ corpus10, ∃ d, decideFnOk tc = Except.ok d :=
    fun tc _ => ⟨decision0, rfl⟩
  refine ⟨hok, by decide, by decide, ?_⟩
  rw [(C4_accuracy decideFnOk corpus10 hok).2.1]
  decide

/-- C9 counterexample: a parsed oracle response with `action = "defer"` and
a `ticketLink` present is accepted unchanged by the response validator —
refuting the claim that a decision whose `ticketLink`/`newTicketPayload`
presence is not determined by `action` is rejected. -/
theorem C9_counterexample :
    parseResponseChecks badDecisionJson = Except.ok badDecisionJson ∧
    (badDecisionJson.getField "ticketLink").isSome = true ∧
    badDecisionJson.getField "action" = some (Json.str "defer") := by
  refine ⟨?_, rfl, rfl⟩
  rfl

/-- C9 (amended): the response validator checks only that `action`,
`explanation` and `confidence` are present (truthy) and that `action` is one
of the five action strings; every parsed response meeting those checks —
including one with `ticketLink` present while `action ≠ existing_ticket`, or
`newTicketPayload` present while `action ≠ new_bug` — is returned unchanged,
not rejected. -/
theorem C9_validation (parsed : Json) :
    parseResponseChecks parsed = Except.ok parsed ↔
      (((parsed.getField "action").getD Json.null).truthy = true ∧
       ((parsed.getField "explanation").getD Json.null).truthy = true ∧
       ((parsed.getField "confidence").getD Json.null).truthy = true ∧
       ∃ a, parsed.getField "action" = some (Json.str a) ∧
         validActions.contains a = true) := by
  unfold parseResponseChecks
  by_cases h1 : ((parsed.getField "action").getD Json.null).truthy = true
  · by_cases h2 : ((parsed.getField "explanation").getD Json.null).truthy = true
    · by_cases h3 : ((parsed.getField "confidence").getD Json.null).truthy = true
      · rw [if_neg (by simp [h1, h2, h3])]
        cases hfa : parsed.getField "action" with
        | none =>
          rw [hfa] at h1
          simp [Json.truthy] at h1
        | some j =>
          rcases j with _ | b | q | a | elems | fields
          · rw [hfa] at h1; simp [Json.truthy] at h1
          · simp [hfa, h1, h2, h3]
          · simp [hfa, h1, h2, h3]
          · by_cases hv : validActions.contains a = true
            · simp [hfa, hv, h1, h2, h3]
              intro _
              rw [hfa] at h1
              simpa using h1
            · simp [hfa, hv, h1, h2, h3]
              intro _
              rw [hfa] at h1
              simpa using h1
          · simp [hfa, h1, h2, h3]
          · simp [hfa, h1, h2, h3]
      · rw [if_pos (by simp [h3])]
        simp [h3]
    · rw [if_pos (by simp [h2])]
      simp [h2]
  · rw [if_pos (by simp [h1])]
    simp [h1]

/-- Helper for C8: ASCII lowercasing never produces an uppercase letter. -/
theorem char_toLower_not_upper (ch : Char) : (ch.toLower).isUpper = false := by
  rw [Char.toLower]
  split
  · next h =>
    have hvalid : (ch.toNat + 32).isValidChar := Or.inl (by omega)
    have hval : (Char.ofNat (ch.toNat + 32)).val.toNat = ch.toNat + 32 := by
      rw [Char.ofNat, dif_pos hvalid]
      rfl
    have hnotle : ¬((Char.ofNat (ch.toNat + 32)).val ≤ 90) := by
      intro hle
      have h2 : (Char.ofNat (ch.toNat + 32)).val.toNat ≤ 90 :=
        UInt32.toNat_le_of_le (by norm_num [UInt32.size]) hle
      omega
    simp [Char.isUpper, hnotle]
  · next h =>
    by_cases h65 : (65 : UInt32) ≤ ch.val
    · by_cases h90 : ch.val ≤ (90 : UInt32)
      · exact absurd
          ⟨(UInt32.le_toNat_of_le (by norm_num [UInt32.size]) h65 : 65 ≤ ch.toNat),
           (UInt32.toNat_le_of_le (by norm_num [UInt32.size]) h90 : ch.toNat ≤ 90)⟩ h
      · simp [Char.isUpper, h90]
    · simp [Char.isUpper, h65]

/-- Helper for C8: every character of every field produced by the
whitespace splitter comes from the input (or the accumulator). -/
theorem splitWsGo_chars :
    ∀ (l acc : List Char) (prev : Bool) (w : List Char),
      w ∈ splitWsGo l acc prev → ∀ ch ∈ w, ch ∈ l ∨ ch ∈ acc := by
  intro l
  induction l with
  | nil =>
    intro acc prev w hw ch hch
    simp only [splitWsGo, List.mem_singleton] at hw
    subst hw
    exact Or.inr (List.mem_reverse.1 hch)
  | cons c rest ih =>
    intro acc prev w hw ch hch
    simp only [splitWsGo] at hw
    by_cases hsp : isJsSpace c = true
    · rw [if_pos hsp] at hw
      by_cases hprev : prev = true
      · rw [if_pos hprev] at hw
        rcases ih acc true w hw ch hch with h | h
        · exact Or.inl (List.mem_cons_of_mem _ h)
        · exact Or.inr h
      · rw [if_neg hprev] at hw
        rcases List.mem_cons.1 hw with hweq | hw2
        · subst hweq
          exact Or.inr (List.mem_reverse.1 hch)
        · rcases ih [] true w hw2 ch hch with h | h
          · exact Or.inl (List.mem_cons_of_mem _ h)
          · exact absurd h (List.not_mem_nil _)
    · rw [if_neg hsp] at hw
      rcases ih (c :: acc) false w hw ch hch with h | h
      · exact Or.inl (List.mem_cons_of_mem _ h)
      · rcases List.mem_cons.1 h with rfl | h2
        · exact Or.inl (List.mem_cons_self _ _)
        · exact Or.inr h2

/-- Helper for C8: every word of the cleaned, lowercased, split message
consists of non-uppercase characters. -/
theorem keywordSource_lowercase (message : List Char) :
    ∀ w ∈ keywordSource message, ∀ ch ∈ w, ch.isUpper = false := by
  intro w hw ch hch
  unfold keywordSource splitWs at hw
  rcases splitWsGo_chars _ [] false w hw ch hch with h | h
  · unfold jsToLower at h
    rcases List.mem_map.1 h with ⟨c0, _, rfl⟩
    exact char_toLower_not_upper c0
  · exact absurd h (List.not_mem_nil _)

/-- C8: for every input message, the keyword extractor keeps at most 8
tokens; each kept token has length strictly greater than 2, is not a
stop-word and contains no uppercase letter; the kept tokens are a
subsequence (original relative order) of the cleaned message's words; the
returned string is the tokens joined by single spaces; the empty message
and any message reducing to only stop-words or short tokens yield the empty
result. -/
theorem C8_extract_keywords (message : List Char) :
    (extractKeywordsList message).length ≤ 8 ∧
    (∀ w ∈ extractKeywordsList message,
        2 < w.length ∧ stopWords.contains w = false ∧ ∀ ch ∈ w, ch.isUpper = false) ∧
    (extractKeywordsList message).Sublist (keywordSource message) ∧
    extractKeywords message = List.intercalate [' '] (extractKeywordsList message) ∧
    extractKeywords [] = [] ∧
    ((∀ w ∈ keywordSource message, w.length ≤ 2 ∨ w ∈ stopWords) →
      extractKeywords message = []) := by
  refine ⟨?_, ?_, ?_, rfl, rfl, ?_⟩
  · exact List.length_take_le 8 _
  · intro w hw
    have hmem := List.take_subset 8 _ hw
    rw [List.mem_filter] at hmem
    obtain ⟨hsrc, hp⟩ := hmem
    rw [Bool.and_eq_true, decide_eq_true_eq, Bool.not_eq_true'] at hp
    exact ⟨hp.1, hp.2, keywordSource_lowercase message w hsrc⟩
  · exact (List.take_sublist 8 _).trans (List.filter_sublist _)
  · intro H
    unfold extractKeywords extractKeywordsList
    have hnil : (keywordSource message).filter
        (fun w => decide (2 < w.length) && !(stopWords.contains w)) = [] := by
      rw [List.filter_eq_nil_iff]
      intro w hw
      rcases H w hw with h | h
      · have h2 : ¬(2 < w.length) := by omega
        simp [h2]
      · simp [List.contains, h]
    rw [hnil]
    rfl

/-- Witness for C8: the §8 example message keeps `dashboard` and `broken`
and drops the mention token `U123`. -/
theorem C8_extract_keywords_witness :
    ("dashboard".toList ∈ extractKeywordsList exMessage) ∧
    2 < "dashboard".toList.length ∧
    stopWords.contains "dashboard".toList = false ∧
    ("broken".toList ∈ extractKeywordsList exMessage) ∧
    ¬("u123".toList ∈ extractKeywordsList exMessage) ∧
    ¬("U123".toList ∈ extractKeywordsList exMessage) := by
  have h := (C8_extract_keywords exMessage).2.1 ("dashboard".toList) (by decide)
  exact ⟨by decide, h.1, h.2.1, by decide, by decide, by decide⟩

/-- Helper for C2: exp of half a log is a square root. -/
theorem exp_half_log {y : ℝ} (hy : 0 < y) :
    Real.exp (1 / 2 * Real.log y) = Real.sqrt y := by
  rw [Real.sqrt_eq_rpow, Real.rpow_def_of_pos hy, mul_comm]

/-- Helper for C2: the exact rational value of the Lanczos accumulation at
`z = -1/2`, the argument produced by `lnGamma (1/2)`. -/
theorem lanczosSum_neg_half :
    lanczosSum (-(1 / 2)) =
      (62374192998877254614304210241 : ℚ) / 80437500000000000000000000 := by
  norm_num [lanczosSum, lanczosC, List.range_succ]

/-- Helper for C2: rational bounds on `exp (119/24)`. -/
theorem exp_119_24_bounds :
    (142.22 : ℝ) < Real.exp (119 / 24) ∧ Real.exp (119 / 24) < 142.48 := by
  have he1l := Real.exp_one_gt_d9
  have he1u := Real.exp_one_lt_d9
  have hsplit : Real.exp (119 / 24 : ℝ) = Real.exp 1 ^ (5 : ℕ) * Real.exp (-(1 / 24)) := by
    rw [← Real.exp_nat_mul, ← Real.exp_add]
    norm_num
  have hnl : (23 / 24 : ℝ) < Real.exp (-(1 / 24)) := by
    have := Real.add_one_lt_exp (x := (-(1 / 24) : ℝ)) (by norm_num)
    linarith
  have hnu : Real.exp (-(1 / 24)) < 24 / 25 := by
    have h1 : (25 / 24 : ℝ) < Real.exp (1 / 24) := by
      have := Real.add_one_lt_exp (x := ((1 / 24) : ℝ)) (by norm_num)
      linarith
    have h2 : Real.exp (-(1 / 24)) = (Real.exp (1 / 24))⁻¹ := by
      rw [← Real.exp_neg]
    rw [h2]
    rw [show ((24 : ℝ) / 25) = (25 / 24)⁻¹ by norm_num]
    exact inv_lt_inv_of_lt (by norm_num) h1
  constructor
  · rw [hsplit]
    have h5 : (2.7182818283 : ℝ) ^ (5 : ℕ) < Real.exp 1 ^ (5 : ℕ) := by
      apply pow_lt_pow_left he1l (by norm_num)
      norm_num
    calc (142.22 : ℝ) < (2.7182818283 : ℝ) ^ (5 : ℕ) * (23 / 24) := by norm_num
      _ < Real.exp 1 ^ (5 : ℕ) * (23 / 24) := by
          apply mul_lt_mul_of_pos_right h5 (by norm_num)
      _ < Real.exp 1 ^ (5 : ℕ) * Real.exp (-(1 / 24)) := by
          apply mul_lt_mul_of_pos_left hnl (by positivity)
  · rw [hsplit]
    have h5 : Real.exp 1 ^ (5 : ℕ) < (2.7182818286 : ℝ) ^ (5 : ℕ) := by
      apply pow_lt_pow_left he1u (by positivity)
      norm_num
    calc Real.exp 1 ^ (5 : ℕ) * Real.exp (-(1 / 24))
        < Real.exp 1 ^ (5 : ℕ) * (24 / 25) := by
          apply mul_lt_mul_of_pos_left hnu (by positivity)
      _ < (2.7182818286 : ℝ) ^ (5 : ℕ) * (24 / 25) := by
          apply mul_lt_mul_of_pos_right h5 (by norm_num)
      _ < 142.48 := by norm_num

/-- Helper for C2: rational bounds on `sqrt (49/24)`. -/
theorem sqrt_49_24_bounds :
    (1.42 : ℝ) < Real.sqrt (49 / 24) ∧ Real.sqrt (49 / 24) < 1.43 := by
  constructor
  · rw [show (1.42 : ℝ) = Real.sqrt (1.42 ^ 2) by rw [Real.sqrt_sq (by norm_num)]]
    apply Real.sqrt_lt_sqrt (by norm_num)
    norm_num
  · rw [show (1.43 : ℝ) = Real.sqrt (1.43 ^ 2) by rw [Real.sqrt_sq (by norm_num)]]
    apply Real.sqrt_lt_sqrt (by norm_num)
    norm_num

/-- Helper for C2: rational bounds on `sqrt (2π)`. -/
theorem sqrt_two_pi_bounds :
    (2.5 : ℝ) < Real.sqrt (2 * Real.pi) ∧ Real.sqrt (2 * Real.pi) < 2.51 := by
  have hpl := Real.pi_gt_3141592
  have hpu := Real.pi_lt_315
  constructor
  · rw [show (2.5 : ℝ) = Real.sqrt (2.5 ^ 2) by rw [Real.sqrt_sq (by norm_num)]]
    apply Real.sqrt_lt_sqrt (by norm_num)
    nlinarith
  · rw [show (2.51 : ℝ) = Real.sqrt (2.51 ^ 2) by rw [Real.sqrt_sq (by norm_num)]]
    apply Real.sqrt_lt_sqrt (by positivity)
    nlinarith

/-- Helper for C2: the Lanczos `lnGamma` at `1/2` in closed form (the
`(z + 0.5) ln t` term vanishes exactly because `z + 0.5 = 0`). -/
theorem lnGamma_half :
    lnGamma (1 / 2) = 1 / 2 * Real.log (2 * Real.pi) - 7 +
      Real.log ((62374192998877254614304210241 : ℝ) / 80437500000000000000000000) := by
  rw [lnGamma, if_neg (by norm_num)]
  simp only [lnGammaMain]
  rw [show (1 / 2 : ℚ) - 1 = -(1 / 2) by norm_num, lanczosSum_neg_half]
  push_cast
  norm_num

set_option maxRecDepth 8000 in
set_option maxHeartbeats 4000000 in
/-- Helper for C2: the exact rational value computed by the continued
fraction at `a = 1/2`, `x = 49/24` (the loop breaks at iteration 21). -/
theorem gammaincCF_half :
    gammaincCF (1 / 2) (49 / 24) =
      (1582926139790395919108564841022049353736907338335934612124094223245671430709632401 : ℚ) /
      3824934533789902683092631095025769457267826523887198968750000000000000000000000000 := by
  norm_num [gammaincCF, gammaincCFLoop, jsAbs]

/-- Helper for C2: closed form of the p-value at `b = 10`, `c = 2`:
the continued-fraction rational times
`exp (119/24) · sqrt (49/24) / (sqrt (2π) · L)` with `L` the Lanczos
rational. -/
theorem mcnemar_10_2_pValue_eq :
    (mcnemarsTest 10 2).pValue
      = ((1582926139790395919108564841022049353736907338335934612124094223245671430709632401 : ℝ) /
          3824934533789902683092631095025769457267826523887198968750000000000000000000000000) *
        (Real.exp (119 / 24) * Real.sqrt (49 / 24)
          / (Real.sqrt (2 * Real.pi) *
             ((62374192998877254614304210241 : ℝ) / 80437500000000000000000000))) := by
  have hpv : (mcnemarsTest 10 2).pValue = 1 - chiSquareCDF (49 / 12) 1 := by
    simp only [mcnemarsTest]
    rw [if_neg (by norm_num)]
    show (1 : ℝ) - chiSquareCDF ((jsAbs ((10 : ℚ) - 2) - 1) ^ 2 / ((10 : ℚ) + 2)) 1 = _
    norm_num [jsAbs]
  rw [hpv]
  have hcdf : chiSquareCDF (49 / 12) 1 = gammainc (1 / 2) (49 / 24) := by
    simp only [chiSquareCDF]
    rw [if_neg (by norm_num)]
    norm_num
  rw [hcdf]
  have hg : gammainc (1 / 2 : ℚ) (49 / 24)
      = 1 - Real.exp (-((49 / 24 : ℚ) : ℝ) + ((1 / 2 : ℚ) : ℝ) * Real.log ((49 / 24 : ℚ) : ℝ)
          - lnGamma (1 / 2)) * ((gammaincCF (1 / 2) (49 / 24) : ℚ) : ℝ) := by
    simp only [gammainc]
    rw [if_neg (by norm_num), if_neg (by norm_num), if_neg (by norm_num)]
  rw [hg, gammaincCF_half, lnGamma_half]
  push_cast
  rw [show (-(49 / 24 : ℝ) + 1 / 2 * Real.log (49 / 24)
      - (1 / 2 * Real.log (2 * Real.pi) - 7 +
         Real.log ((62374192998877254614304210241 : ℝ) / 80437500000000000000000000)))
      = (119 / 24 : ℝ) + 1 / 2 * Real.log (49 / 24) - 1 / 2 * Real.log (2 * Real.pi)
        - Real.log ((62374192998877254614304210241 : ℝ) / 80437500000000000000000000) by ring]
  rw [Real.exp_sub, Real.exp_sub, Real.exp_add]
  rw [exp_half_log (by norm_num : (0 : ℝ) < 49 / 24),
    exp_half_log (by positivity : (0 : ℝ) < 2 * Real.pi)]
  rw [Real.exp_log (by norm_num :
    (0 : ℝ) < (62374192998877254614304210241 : ℝ) / 80437500000000000000000000)]
  rw [div_div]
  ring

/-- C2: for `b = 10`, `c = 2` the comparator returns
`chiSquare = 49/12 ≈ 4.0833` and a p-value within `1e-3` of `0.0433`, below
the `0.05` significance threshold. -/
theorem C2_mcnemar_10_2 :
    (mcnemarsTest 10 2).chiSquare = 49 / 12 ∧
    |(mcnemarsTest 10 2).pValue - 0.0433| < 1 / 1000 ∧
    (mcnemarsTest 10 2).pValue < 0.05 := by
  have hchi : (mcnemarsTest 10 2).chiSquare = 49 / 12 := by
    simp only [mcnemarsTest]
    rw [if_neg (by norm_num)]
    show (jsAbs ((10 : ℚ) - 2) - 1) ^ 2 / ((10 : ℚ) + 2) = _
    norm_num [jsAbs]
  obtain ⟨hEl, hEu⟩ := exp_119_24_bounds
  obtain ⟨hS1l, hS1u⟩ := sqrt_49_24_bounds
  obtain ⟨hS2l, hS2u⟩ := sqrt_two_pi_bounds
  set Hr : ℝ :=
    (1582926139790395919108564841022049353736907338335934612124094223245671430709632401 : ℝ) /
      3824934533789902683092631095025769457267826523887198968750000000000000000000000000 with hHr
  set Lr : ℝ := (62374192998877254614304210241 : ℝ) / 80437500000000000000000000 with hLr
  have hHpos : (0 : ℝ) < Hr := by rw [hHr]; positivity
  have hLpos : (0 : ℝ) < Lr := by rw [hLr]; positivity
  have hupper : (mcnemarsTest 10 2).pValue ≤ Hr * (142.48 * 1.43 / (2.5 * Lr)) := by
    rw [mcnemar_10_2_pValue_eq]
    gcongr <;> first
      | positivity
      | exact hEu.le
      | exact hS1u.le
      | exact hS2l.le
  have hlower : Hr * (142.22 * 1.42 / (2.51 * Lr)) ≤ (mcnemarsTest 10 2).pValue := by
    rw [mcnemar_10_2_pValue_eq]
    gcongr <;> first
      | positivity
      | exact hEl.le
      | exact hS1l.le
      | exact hS2u.le
  have hub : Hr * (142.48 * 1.43 / (2.5 * Lr)) < 0.0443 := by
    rw [hHr, hLr]
    norm_num
  have hlb : (0.0423 : ℝ) < Hr * (142.22 * 1.42 / (2.51 * Lr)) := by
    rw [hHr, hLr]
    norm_num
  refine ⟨hchi, ?_, by linarith⟩
  rw [abs_lt]
  constructor <;> [linarith; linarith]

end BugTriage
